import Mathlib

/-!
A shallow embedding of the LivePerson messaging bot session manager
(`src/bot/bot.js`), together with proofs of the claims about it.

The embedding follows the source file:
* the `myConversations` table (`ConvMap`) and the handlers registered in
  `init()` for `cqm.ExConversationChangeNotification` and
  `ms.MessagingEventNotification`;
* the outbound operations `joinConversation`, `acceptWaitingConversations`,
  `getConsumerProfile`, `markAsRead`;
* the reconnect back-off loop `_reconnect`.

Transport calls and emitted events are recorded as explicit `Effect` values;
JavaScript exceptions (`TypeError` on dereferencing `undefined`) are recorded
as an `exn` flag, with processing aborting at the point of the throw.
-/

namespace MessagingBot

/-- A member of `conversationDetails.participants`.  In JS a participant's
`role` may be absent (`undefined`), hence `Option`. -/
structure Participant where
  id : String
  role : Option String
deriving DecidableEq, Repr

/-- `change.result.conversationDetails`: the fields of it the bot reads. -/
structure ConversationDetails where
  participants : List Participant
deriving DecidableEq, Repr

/-- `originatorMetadata`; the code only ever reads its `role` field. -/
structure OriginatorMetadata where
  role : Option String
deriving DecidableEq, Repr

/-- The reduced last-content-event projection stored by
`_updateMyConversation` (bot.js lines 547-556).  The incoming notification's
`event.type` is flattened here to `eventType`. -/
structure LastContentEventNotification where
  sequence : Nat
  serverTimestamp : Int
  originatorId : String
  originatorPId : String
  originatorMetadata : OriginatorMetadata
  eventType : String
deriving DecidableEq, Repr

/-- The response body of `getUserProfile`; the bot treats it opaquely. -/
structure UserProfile where
  raw : String
deriving DecidableEq, Repr

/-- One entry of `this.myConversations`.  A freshly added entry is the empty
object `{}` (bot.js line 530), so every field is optional. -/
structure TrackedConversation where
  convId : Option String
  conversationDetails : Option ConversationDetails
  consumerProfile : Option UserProfile
  lastContentEventNotification : Option LastContentEventNotification
deriving DecidableEq, Repr

/-- `this.myConversations[conversationId] = {}` (bot.js line 530). -/
def emptyTracked : TrackedConversation :=
  { convId := none, conversationDetails := none, consumerProfile := none,
    lastContentEventNotification := none }

/-- `this.myConversations`: a JS object keyed by conversation id. -/
def ConvMap : Type := String → Option TrackedConversation

/-- `this.myConversations = {}` (bot.js line 88). -/
def emptyConvMap : ConvMap := fun _ => none

/-- JS property assignment `m[id] = tc`. -/
def ConvMap.insert (m : ConvMap) (conversationId : String)
    (tc : TrackedConversation) : ConvMap :=
  fun k => if k = conversationId then some tc else m k

/-- JS `delete m[id]` (bot.js line 207). -/
def ConvMap.erase (m : ConvMap) (conversationId : String) : ConvMap :=
  fun k => if k = conversationId then none else m k

/-- Transport calls and emitted downstream events, recorded in order. -/
inductive Effect where
  | getUserProfile (userId : String)
  | subscribeMessagingEvents (dialogId : String)
  | conversationNotification
  | contentNotification (dialogId : String) (sequence : Nat) (message : String)
      (originatorMetadata : OriginatorMetadata)
  | markAsRead (dialogId : String) (sequenceList : List Nat)
  | updateRingState (ringId : String) (ringState : String)
  | updateConversationField (conversationId : String) (role : String)
  | publishEvent (dialogId : String) (message : String)
  | logInfo (source : String)
  | logError (source : String)
deriving DecidableEq, Repr

/-- The `result` attribute of one `ExConversationChangeNotification` change. -/
structure ChangeResult where
  convId : String
  conversationDetails : ConversationDetails
  lastContentEventNotification : Option LastContentEventNotification
deriving DecidableEq, Repr

/-- One change record of an `ExConversationChangeNotification` batch. -/
structure ConversationChange where
  type : String
  result : ChangeResult
deriving DecidableEq, Repr

/-- bot.js line 299:
`conversationDetails.participants.filter(p => p.role === 'CONSUMER')[0].id`.
`none` means the `[0]` element is missing, so reading `.id` throws. -/
def consumerId (conversationDetails : ConversationDetails) : Option String :=
  ((conversationDetails.participants.filter
      fun p => p.role = some "CONSUMER").head?).map Participant.id

/-- `getRole` (bot.js lines 505-508): role of participant `pid`, propagating
JS `undefined` (absent participant, or participant without a role). -/
def getRole (conversationDetails : ConversationDetails) (pid : String) :
    Option String :=
  ((conversationDetails.participants.filter
      fun p => p.id = pid).head?).bind Participant.role

/-- The narrowing performed at bot.js lines 548-555: only the listed fields of
the incoming `lastContentEventNotification` are kept. -/
def reduceLastContent (lc : LastContentEventNotification) :
    LastContentEventNotification :=
  { sequence := lc.sequence, serverTimestamp := lc.serverTimestamp,
    originatorId := lc.originatorId, originatorPId := lc.originatorPId,
    originatorMetadata := { role := lc.originatorMetadata.role },
    eventType := lc.eventType }

/-- `_updateMyConversation` (bot.js lines 540-558). -/
def updateMyConversation (m : ConvMap) (conversationId : String)
    (result : ChangeResult) : ConvMap :=
  let oldData := (m conversationId).getD emptyTracked
  m.insert conversationId
    { convId := some result.convId,
      conversationDetails := some result.conversationDetails,
      consumerProfile := oldData.consumerProfile,
      lastContentEventNotification :=
        result.lastContentEventNotification.map reduceLastContent }

/-- Result of processing conversation-change records: the updated table, the
transport calls / emitted events in order, and whether a JS exception was
thrown (aborting the rest of the batch). -/
structure ConvStepResult where
  map : ConvMap
  effects : List Effect
  exn : Bool

/-- One iteration of the `body.changes.forEach` loop of the
`cqm.ExConversationChangeNotification` handler (bot.js lines 173-210).

On a first-seen `UPSERT` the code adds an empty entry (line 184), then runs
`getConsumerProfile` (line 188): that helper first computes the consumer id —
throwing a `TypeError` when no participant has role `CONSUMER` — and then
fires the `getUserProfile` request; its return value (JS `undefined`) is what
line 188 stores into `consumerProfile`, so the stored field stays `none`.
Then the code subscribes to messaging events (line 191) and finally refreshes
the entry via `_updateMyConversation` (line 202). -/
def processConvChange (m : ConvMap) (change : ConversationChange) :
    ConvStepResult :=
  if change.type = "UPSERT" then
    if (m change.result.convId).isSome then
      { map := updateMyConversation m change.result.convId change.result,
        effects := [], exn := false }
    else
      let m1 := m.insert change.result.convId emptyTracked
      match consumerId change.result.conversationDetails with
      | none => { map := m1, effects := [], exn := true }
      | some cid =>
        { map := updateMyConversation m1 change.result.convId change.result,
          effects := [Effect.getUserProfile cid,
                      Effect.subscribeMessagingEvents change.result.convId],
          exn := false }
  else if change.type = "DELETE" then
    { map := m.erase change.result.convId, effects := [], exn := false }
  else
    { map := m, effects := [], exn := false }

/-- The whole `body.changes.forEach` loop: changes are processed in order and
an exception aborts the remainder of the batch. -/
def processConvChanges (m : ConvMap) :
    List ConversationChange → ConvStepResult
  | [] => { map := m, effects := [], exn := false }
  | change :: rest =>
    let r := processConvChange m change
    if r.exn then { map := r.map, effects := r.effects, exn := true }
    else
      let r2 := processConvChanges r.map rest
      { map := r2.map, effects := r.effects ++ r2.effects, exn := r2.exn }

/-- The full `cqm.ExConversationChangeNotification` handler: after the loop it
re-emits one conversation-notification event (bot.js line 212), unless the
loop threw. -/
def handleConversationNotification (m : ConvMap)
    (changes : List ConversationChange) : ConvStepResult :=
  let r := processConvChanges m changes
  if r.exn then r
  else { map := r.map, effects := r.effects ++ [Effect.conversationNotification],
         exn := false }

/-- The completion callback passed to `getUserProfile` inside
`getConsumerProfile` (bot.js lines 300-305).  It logs the error or the
response and nothing else: in particular it never writes to
`myConversations`, so the table is returned unchanged. -/
def getUserProfileCallback (m : ConvMap)
    (result : Except String UserProfile) : ConvMap × List Effect :=
  match result with
  | Except.error _ => (m, [Effect.logError "getConsumerProfile"])
  | Except.ok _ => (m, [Effect.logInfo "getConsumerProfile"])

/-- An event inside one `ms.MessagingEventNotification` change; the handler
discriminates on `event.type`. -/
inductive MsgEvent where
  | contentEvent (message : String)
  | acceptStatusEvent (status : String) (sequenceList : List Nat)
  | chatStateEvent (chatState : String)
  | richContentEvent
deriving DecidableEq, Repr

/-- One change record of an `ms.MessagingEventNotification` batch. -/
structure MsgChange where
  dialogId : String
  sequence : Nat
  originatorId : String
  originatorMetadata : OriginatorMetadata
  event : MsgEvent
deriving DecidableEq, Repr

/-- The body of one `ms.MessagingEventNotification`: a shared dialog id plus
the change records. -/
structure MessagingEventBody where
  dialogId : String
  changes : List MsgChange
deriving DecidableEq, Repr

/-- The record stored in the `respond` object (bot.js lines 236-241). -/
structure RespondEntry where
  dialogId : String
  sequence : Nat
  message : String
  originatorMetadata : OriginatorMetadata
deriving DecidableEq, Repr

/-- The `respond` JS object.  Its keys are the strings
`body.dialogId + "-" + sequence`; since `body.dialogId` is fixed within one
batch, keys coincide exactly when the sequence numbers coincide, so we key by
the sequence number.  JS objects with such (non-integer-like) keys iterate in
insertion order, with in-place overwrite on re-assignment, hence an ordered
association list. -/
abbrev RespondMap := List (Nat × RespondEntry)

/-- JS assignment `respond[key] = v`: overwrite in place if the key exists,
otherwise append. -/
def setRespond (r : RespondMap) (k : Nat) (v : RespondEntry) : RespondMap :=
  if r.any (fun p => p.1 == k) then
    r.map (fun p => if p.1 = k then (k, v) else p)
  else r ++ [(k, v)]

/-- JS `delete respond[key]`. -/
def delRespond (r : RespondMap) (k : Nat) : RespondMap :=
  r.filter (fun p => p.1 != k)

/-- One iteration of the first `body.changes.forEach` loop of the
`ms.MessagingEventNotification` handler (bot.js lines 230-250): content
events not originated by the bot are added to `respond`; accept-status
events originated by the bot delete every referenced sequence.  Both actions
are gated on `_isInMyConversations(change.dialogId)`. -/
def msgStep (agentId : String) (m : ConvMap) (bodyDialogId : String)
    (r : RespondMap) (change : MsgChange) : RespondMap :=
  if (m change.dialogId).isSome then
    match change.event with
    | MsgEvent.contentEvent message =>
      if change.originatorId ≠ agentId then
        setRespond r change.sequence
          { dialogId := bodyDialogId, sequence := change.sequence,
            message := message, originatorMetadata := change.originatorMetadata }
      else r
    | MsgEvent.acceptStatusEvent _ sequenceList =>
      if change.originatorId = agentId then sequenceList.foldl delRespond r
      else r
    | _ => r
  else r

/-- The whole first loop, starting from `respond = {}` (bot.js line 229). -/
def buildRespond (agentId : String) (m : ConvMap) (bodyDialogId : String)
    (changes : List MsgChange) : RespondMap :=
  changes.foldl (msgStep agentId m bodyDialogId) []

/-- The body of the `Object.keys(respond).forEach` loop (bot.js lines
254-260) for one pending entry: `markAsRead` only when the bot's role in the
conversation is `ASSIGNED_AGENT`, then emit one content notification. -/
def emitForEntry (agentId : String) (conversationDetails : ConversationDetails)
    (ce : RespondEntry) : List Effect :=
  (if getRole conversationDetails agentId = some "ASSIGNED_AGENT" then
    [Effect.markAsRead ce.dialogId [ce.sequence]]
  else []) ++
  [Effect.contentNotification ce.dialogId ce.sequence ce.message
    ce.originatorMetadata]

/-- The full `ms.MessagingEventNotification` handler (bot.js lines 217-262).
It never writes to `myConversations`; the returned `Bool` is the exception
flag.  The final loop runs only when `this.myConversations[body.dialogId]`
is truthy (line 253); each of its iterations first calls
`getRole(this.myConversations[body.dialogId].conversationDetails)`, which
throws a `TypeError` when the tracked entry has no `conversationDetails`
(that guard is loop-invariant, so a nonempty `respond` then throws before
any effect is produced). -/
def handleMessagingEvent (agentId : String) (m : ConvMap)
    (body : MessagingEventBody) : List Effect × Bool :=
  let respond := buildRespond agentId m body.dialogId body.changes
  match m body.dialogId with
  | none => ([], false)
  | some entry =>
    if respond.isEmpty then ([], false)
    else
      match entry.conversationDetails with
      | none => ([], true)
      | some conversationDetails =>
        (respond.flatMap (fun p => emitForEntry agentId conversationDetails p.2),
         false)

/-- The anchored alternation `/^(READER|MANAGER|ASSIGNED_AGENT)$/.test(role)`
(bot.js line 341): an exact-match test against the three role names. -/
def validJoinRole (role : String) : Bool :=
  role == "READER" || role == "MANAGER" || role == "ASSIGNED_AGENT"

/-- JS values returned by `joinConversation`: `false` on the early return,
`undefined` otherwise. -/
inductive JsValue where
  | undefined
  | boolean (b : Bool)
deriving DecidableEq, Repr

/-- JS truthiness: both `false` and `undefined` are falsy. -/
def jsFalsy : JsValue → Bool
  | JsValue.undefined => true
  | JsValue.boolean b => !b

/-- `joinConversation` (bot.js lines 340-365): the synchronous part.  An
invalid role returns `false` without any transport call; otherwise one
`updateConversationField` request (adding the role as participant) is issued
and the function returns `undefined`. -/
def joinConversation (conversationId : String) (role : String) :
    JsValue × List Effect :=
  if !validJoinRole role then (JsValue.boolean false, [])
  else (JsValue.undefined,
        [Effect.updateConversationField conversationId role])

/-- The success branch of `joinConversation`'s completion callback (bot.js
lines 352-362): with `announce` and a non-READER role, publish one
"<role> joined" text event. -/
def joinConversationSuccessCallback (conversationId : String) (role : String)
    (announce : Bool) : List Effect :=
  if announce && role != "READER" then
    [Effect.publishEvent conversationId (role ++ " joined")]
  else []

/-- One element of `change.result.ringsDetails`. -/
structure Ring where
  ringId : String
  ringState : String
deriving DecidableEq, Repr

/-- The `result` of one routing-notification change. -/
structure RoutingResult where
  conversationId : String
  ringsDetails : List Ring
deriving DecidableEq, Repr

/-- One change record of a routing-notification batch. -/
structure RoutingChange where
  type : String
  result : RoutingResult
deriving DecidableEq, Repr

/-- The inner ring loop of `acceptWaitingConversations` (bot.js lines
318-328): a `WAITING` ring gets one `updateRingState` call transitioning it
to `ACCEPTED`. -/
def acceptRing (ring : Ring) : List Effect :=
  if ring.ringState = "WAITING" then
    [Effect.updateRingState ring.ringId "ACCEPTED"]
  else []

/-- `acceptWaitingConversations` (bot.js lines 315-331). -/
def acceptWaitingConversations (changes : List RoutingChange) : List Effect :=
  changes.flatMap (fun change =>
    if change.type = "UPSERT" then change.result.ringsDetails.flatMap acceptRing
    else [])

/-- The constants of `botConfig` (bot.js lines 20-25); the reconnect interval
and ratio are modelled as exact rationals. -/
structure BotConfigData where
  clockPingInterval : Nat
  reconnectAttempts : Nat
  reconnectInterval : ℚ
  reconnectRatio : ℚ

/-- bot.js lines 20-25. -/
def botConfig : BotConfigData :=
  { clockPingInterval := 300, reconnectAttempts := 35,
    reconnectInterval := 5, reconnectRatio := 6 / 5 }

/-- `_reconnect` (bot.js lines 567-575): each list element is one firing of
the scheduled timer, i.e. one invocation of the transport's `reconnect()`,
recorded as `(attempt, delay-in-seconds-before-this-attempt)`.  After firing,
the next attempt is scheduled with `delay * botConfig.reconnectRatio` only
while `attempt + 1 <= botConfig.reconnectAttempts`. -/
def reconnectSchedule (delay : ℚ) (attempt : Nat) : List (Nat × ℚ) :=
  (attempt, delay) ::
    (if h : attempt + 1 ≤ botConfig.reconnectAttempts then
      reconnectSchedule (delay * botConfig.reconnectRatio) (attempt + 1)
    else [])
termination_by botConfig.reconnectAttempts + 1 - attempt
decreasing_by simp only [botConfig] at h ⊢; omega

/-- The reconnect sequence started by the `closed` handler (bot.js line 288):
`_reconnect()` with its default arguments `delay = botConfig.reconnectInterval`
and `attempt = 1`. -/
def reconnectFromClose : List (Nat × ℚ) :=
  reconnectSchedule botConfig.reconnectInterval 1

/-! ### Concrete sample data used by the witnesses -/

/-- A consumer participant. -/
def demoConsumer : Participant := { id := "consumerA", role := some "CONSUMER" }

/-- The bot's own participant record. -/
def demoAgent : Participant := { id := "botAgent", role := some "ASSIGNED_AGENT" }

/-- Details with a CONSUMER participant present. -/
def demoDetails : ConversationDetails :=
  { participants := [demoConsumer, demoAgent] }

/-- An upsert payload for conversation `dlg1`. -/
def demoResult : ChangeResult :=
  { convId := "dlg1", conversationDetails := demoDetails,
    lastContentEventNotification := none }

/-- Details with no CONSUMER participant. -/
def noConsumerDetails : ConversationDetails :=
  { participants := [demoAgent] }

/-- An upsert payload whose details lack a CONSUMER participant. -/
def noConsumerResult : ChangeResult :=
  { convId := "dlg2", conversationDetails := noConsumerDetails,
    lastContentEventNotification := none }

/-- A successful `getUserProfile` response body. -/
def demoProfileResponse : UserProfile := { raw := "profileData" }

/-! ### Claims about the conversation-change handler -/

/-- Claim C9: an upsert for a not-yet-tracked conversation raises a JS
exception exactly when the conversation details contain no participant with
role CONSUMER (the consumer-id lookup dereferences a missing first element);
the upsert handling completes normally only under the precondition that a
CONSUMER participant is present. -/
theorem claim_C9_upsert_throws_without_consumer (m : ConvMap)
    (change : ConversationChange) (hup : change.type = "UPSERT")
    (h0 : m change.result.convId = none) :
    (processConvChange m change).exn = true ↔
      consumerId change.result.conversationDetails = none := by
  cases hc : consumerId change.result.conversationDetails <;>
    simp [processConvChange, hup, h0, hc]

theorem claim_C9_witness :
    ((⟨"UPSERT", noConsumerResult⟩ : ConversationChange).type = "UPSERT" ∧
      emptyConvMap (⟨"UPSERT", noConsumerResult⟩ : ConversationChange).result.convId = none) ∧
    ((processConvChange emptyConvMap ⟨"UPSERT", noConsumerResult⟩).exn = true ↔
      consumerId noConsumerResult.conversationDetails = none) :=
  ⟨⟨rfl, rfl⟩,
    claim_C9_upsert_throws_without_consumer emptyConvMap
      ⟨"UPSERT", noConsumerResult⟩ rfl rfl⟩

/-- Unfolding lemma: an upsert for an already-tracked conversation only
refreshes the entry. -/
theorem processConvChange_tracked (m : ConvMap) (res : ChangeResult)
    (h : (m res.convId).isSome = true) :
    processConvChange m ⟨"UPSERT", res⟩ =
      { map := updateMyConversation m res.convId res, effects := [],
        exn := false } := by
  simp [processConvChange, h]

/-- Unfolding lemma: a first upsert with a CONSUMER participant present adds
the entry, fires the profile fetch and the subscription, and refreshes. -/
theorem processConvChange_untracked (m : ConvMap) (res : ChangeResult)
    (cid : String) (h : m res.convId = none)
    (hc : consumerId res.conversationDetails = some cid) :
    processConvChange m ⟨"UPSERT", res⟩ =
      { map := updateMyConversation (m.insert res.convId emptyTracked)
          res.convId res,
        effects := [Effect.getUserProfile cid,
                    Effect.subscribeMessagingEvents res.convId],
        exn := false } := by
  simp [processConvChange, h, hc]

/-- Claim C4: a first upsert for an untracked conversation id creates exactly
one tracked entry (the table changes at no other key), issues exactly one
consumer-profile fetch and exactly one messaging-event subscription; a second
upsert for the same id issues no further transport call and only refreshes
the stored details (preserving the — still empty — profile field and leaving
every other key untouched). -/
theorem claim_C4_first_upsert_once (m : ConvMap) (conversationId cid k : String)
    (res1 res2 : ChangeResult)
    (h0 : m conversationId = none)
    (hid1 : res1.convId = conversationId) (hid2 : res2.convId = conversationId)
    (hcid : consumerId res1.conversationDetails = some cid)
    (hk : k ≠ conversationId) :
    (processConvChange m ⟨"UPSERT", res1⟩).exn = false ∧
    ((processConvChange m ⟨"UPSERT", res1⟩).map conversationId).isSome = true ∧
    (processConvChange m ⟨"UPSERT", res1⟩).map k = m k ∧
    (processConvChange m ⟨"UPSERT", res1⟩).effects =
      [Effect.getUserProfile cid,
       Effect.subscribeMessagingEvents conversationId] ∧
    (processConvChange (processConvChange m ⟨"UPSERT", res1⟩).map
        ⟨"UPSERT", res2⟩).exn = false ∧
    (processConvChange (processConvChange m ⟨"UPSERT", res1⟩).map
        ⟨"UPSERT", res2⟩).effects = [] ∧
    (processConvChange (processConvChange m ⟨"UPSERT", res1⟩).map
        ⟨"UPSERT", res2⟩).map conversationId =
      some { convId := some conversationId,
             conversationDetails := some res2.conversationDetails,
             consumerProfile := none,
             lastContentEventNotification :=
               res2.lastContentEventNotification.map reduceLastContent } ∧
    (processConvChange (processConvChange m ⟨"UPSERT", res1⟩).map
        ⟨"UPSERT", res2⟩).map k =
      (processConvChange m ⟨"UPSERT", res1⟩).map k := by
  have hr1 : processConvChange m ⟨"UPSERT", res1⟩ =
      { map := updateMyConversation (m.insert conversationId emptyTracked)
          conversationId res1,
        effects := [Effect.getUserProfile cid,
                    Effect.subscribeMessagingEvents conversationId],
        exn := false } := by
    rw [processConvChange_untracked m res1 cid (hid1 ▸ h0) hcid, hid1]
  have hmap1 : (processConvChange m ⟨"UPSERT", res1⟩).map conversationId =
      some { convId := some conversationId,
             conversationDetails := some res1.conversationDetails,
             consumerProfile := none,
             lastContentEventNotification :=
               res1.lastContentEventNotification.map reduceLastContent } := by
    rw [hr1]
    simp [updateMyConversation, ConvMap.insert, emptyTracked, hid1]
  have hmap1k : (processConvChange m ⟨"UPSERT", res1⟩).map k = m k := by
    rw [hr1]
    simp [updateMyConversation, ConvMap.insert, hk]
  have hr2 : processConvChange (processConvChange m ⟨"UPSERT", res1⟩).map
      ⟨"UPSERT", res2⟩ =
      { map := updateMyConversation (processConvChange m ⟨"UPSERT", res1⟩).map
          conversationId res2,
        effects := [], exn := false } := by
    rw [processConvChange_tracked _ res2 (by rw [hid2, hmap1]; rfl), hid2]
  refine ⟨by rw [hr1], by rw [hmap1]; rfl, hmap1k, by rw [hr1], by rw [hr2],
    by rw [hr2], ?_, ?_⟩
  · rw [hr2]
    simp [updateMyConversation, ConvMap.insert, hid2, hmap1]
  · rw [hr2]
    simp [updateMyConversation, ConvMap.insert, hk]

theorem claim_C4_witness :
    (emptyConvMap "dlg1" = none ∧ demoResult.convId = "dlg1" ∧
      consumerId demoResult.conversationDetails = some "consumerA" ∧
      ("other" : String) ≠ "dlg1") ∧
    ((processConvChange emptyConvMap ⟨"UPSERT", demoResult⟩).exn = false ∧
     ((processConvChange emptyConvMap ⟨"UPSERT", demoResult⟩).map "dlg1").isSome
        = true ∧
     (processConvChange emptyConvMap ⟨"UPSERT", demoResult⟩).map "other" =
        emptyConvMap "other" ∧
     (processConvChange emptyConvMap ⟨"UPSERT", demoResult⟩).effects =
        [Effect.getUserProfile "consumerA",
         Effect.subscribeMessagingEvents "dlg1"] ∧
     (processConvChange (processConvChange emptyConvMap
          ⟨"UPSERT", demoResult⟩).map ⟨"UPSERT", demoResult⟩).exn = false ∧
     (processConvChange (processConvChange emptyConvMap
          ⟨"UPSERT", demoResult⟩).map ⟨"UPSERT", demoResult⟩).effects = [] ∧
     (processConvChange (processConvChange emptyConvMap
          ⟨"UPSERT", demoResult⟩).map ⟨"UPSERT", demoResult⟩).map "dlg1" =
        some { convId := some "dlg1",
               conversationDetails := some demoResult.conversationDetails,
               consumerProfile := none,
               lastContentEventNotification :=
                 demoResult.lastContentEventNotification.map reduceLastContent } ∧
     (processConvChange (processConvChange emptyConvMap
          ⟨"UPSERT", demoResult⟩).map ⟨"UPSERT", demoResult⟩).map "other" =
        (processConvChange emptyConvMap ⟨"UPSERT", demoResult⟩).map "other") :=
  ⟨⟨rfl, rfl, by decide, by decide⟩,
    claim_C4_first_upsert_once emptyConvMap "dlg1" "consumerA" "other"
      demoResult demoResult rfl rfl rfl (by decide) (by decide)⟩

/-- Claim C1 (refuting its caching part): on the first upsert the consumer
profile is requested lazily and fire-and-forget (one `getUserProfile` call
for the participant with role CONSUMER), but even when the lookup succeeds the
completion callback only logs the response: the tracked conversation's
`consumerProfile` field is still empty after the successful callback runs,
so the profile is never cached. -/
theorem claim_C1_profile_never_cached :
    Effect.getUserProfile "consumerA" ∈
      (processConvChange emptyConvMap ⟨"UPSERT", demoResult⟩).effects ∧
    (getUserProfileCallback
        (processConvChange emptyConvMap ⟨"UPSERT", demoResult⟩).map
        (Except.ok demoProfileResponse)).2 =
      [Effect.logInfo "getConsumerProfile"] ∧
    (getUserProfileCallback
        (processConvChange emptyConvMap ⟨"UPSERT", demoResult⟩).map
        (Except.ok demoProfileResponse)).1 "dlg1" =
      some { convId := some "dlg1",
             conversationDetails := some demoDetails,
             consumerProfile := none,
             lastContentEventNotification := none } := by
  refine ⟨by decide, rfl, by decide⟩

/-! ### Claims about the outbound operations -/

/-- Claim C7: for every conversation id and every role outside
READER / MANAGER / ASSIGNED_AGENT, `joinConversation` performs no transport
call and returns a falsy value (JS `false`) to the caller. -/
theorem claim_C7_join_invalid_role (conversationId role : String)
    (h1 : role ≠ "READER") (h2 : role ≠ "MANAGER")
    (h3 : role ≠ "ASSIGNED_AGENT") :
    jsFalsy (joinConversation conversationId role).1 = true ∧
    (joinConversation conversationId role).2 = [] := by
  simp [joinConversation, validJoinRole, jsFalsy, h1, h2, h3]

theorem claim_C7_witness :
    (("HACKER" : String) ≠ "READER" ∧ ("HACKER" : String) ≠ "MANAGER" ∧
      ("HACKER" : String) ≠ "ASSIGNED_AGENT") ∧
    (jsFalsy (joinConversation "dlg1" "HACKER").1 = true ∧
      (joinConversation "dlg1" "HACKER").2 = []) :=
  ⟨by decide,
    claim_C7_join_invalid_role "dlg1" "HACKER" (by decide) (by decide)
      (by decide)⟩

/-- The per-change ring handling equals a filter/map normal form. -/
theorem acceptRing_flatMap (rings : List Ring) :
    rings.flatMap acceptRing =
      (rings.filter fun ring => ring.ringState == "WAITING").map
        (fun ring => Effect.updateRingState ring.ringId "ACCEPTED") := by
  induction rings with
  | nil => rfl
  | cons r rs ih =>
    by_cases h : r.ringState = "WAITING" <;>
      simp [acceptRing, h, ih, List.filter_cons]

/-- Claim C8: `acceptWaitingConversations` issues exactly one
`updateRingState` call (to `ACCEPTED`) per ring in `WAITING` state inside an
`UPSERT` change — in batch order, for precisely those rings — and none for
rings in other states or inside non-`UPSERT` changes; in particular the
number of calls is the number of such rings. -/
theorem claim_C8_accept_waiting_count (changes : List RoutingChange) :
    acceptWaitingConversations changes =
      (changes.filter fun c => c.type == "UPSERT").flatMap
        (fun c => (c.result.ringsDetails.filter
            fun ring => ring.ringState == "WAITING").map
          (fun ring => Effect.updateRingState ring.ringId "ACCEPTED")) ∧
    (acceptWaitingConversations changes).length =
      ((changes.filter fun c => c.type == "UPSERT").map
        (fun c => (c.result.ringsDetails.filter
            fun ring => ring.ringState == "WAITING").length)).sum := by
  have h1 : acceptWaitingConversations changes =
      (changes.filter fun c => c.type == "UPSERT").flatMap
        (fun c => (c.result.ringsDetails.filter
            fun ring => ring.ringState == "WAITING").map
          (fun ring => Effect.updateRingState ring.ringId "ACCEPTED")) := by
    induction changes with
    | nil => rfl
    | cons c cs ih =>
      by_cases h : c.type = "UPSERT"
      · have ih' := ih
        simp only [acceptWaitingConversations, acceptRing_flatMap] at ih'
        simp only [acceptWaitingConversations, List.flatMap_cons, if_pos h,
          List.filter_cons, h, beq_self_eq_true, if_true, acceptRing_flatMap]
        exact congrArg _ ih'
      · have hb : (c.type == "UPSERT") = false := by
          simp [h]
        simp only [acceptWaitingConversations, List.flatMap_cons, if_neg h,
          List.filter_cons, hb, Bool.false_eq_true, if_false, List.nil_append]
        exact ih
  refine ⟨h1, ?_⟩
  rw [h1, List.length_flatMap]
  simp [Function.comp_def, List.length_map]

/-! ### Infrastructure for the messaging-event claims (C2, C3, C10) -/

/-- A change that inserts sequence `s` into `respond`: a content event with
that sequence, not originated by the bot, on a tracked dialog. -/
def isContentAdd (agentId : String) (m : ConvMap) (s : Nat)
    (change : MsgChange) : Bool :=
  (m change.dialogId).isSome &&
    (match change.event with
     | MsgEvent.contentEvent _ =>
       change.sequence == s && change.originatorId != agentId
     | _ => false)

/-- A change that deletes sequence `s` from `respond`: an accept-status event
originated by the bot, on a tracked dialog, whose sequence list covers `s`. -/
def isReceiptDelete (agentId : String) (m : ConvMap) (s : Nat)
    (change : MsgChange) : Bool :=
  (m change.dialogId).isSome &&
    (match change.event with
     | MsgEvent.acceptStatusEvent _ sequenceList =>
       change.originatorId == agentId && sequenceList.contains s
     | _ => false)

/-- Does the `respond` object have key `s`? -/
def containsKey (r : RespondMap) (s : Nat) : Bool :=
  r.any (fun p => p.1 == s)

theorem containsKey_nil (s : Nat) : containsKey [] s = false := rfl

theorem containsKey_setRespond_self (r : RespondMap) (k : Nat)
    (v : RespondEntry) : containsKey (setRespond r k v) k = true := by
  by_cases h : r.any (fun p => p.1 == k)
  · simp only [setRespond, if_pos h, containsKey] at h ⊢
    rcases List.any_eq_true.1 h with ⟨p, hp, he⟩
    refine List.any_eq_true.2 ⟨if p.1 = k then (k, v) else p, List.mem_map.2 ⟨p, hp, rfl⟩, ?_⟩
    simp only [beq_iff_eq] at he
    simp [he]
  · simp only [setRespond, if_neg h, containsKey]
    exact List.any_eq_true.2 ⟨(k, v), by simp, by simp⟩

theorem containsKey_setRespond_ne (r : RespondMap) (k s : Nat)
    (v : RespondEntry) (hne : s ≠ k) :
    containsKey (setRespond r k v) s = containsKey r s := by
  by_cases h : r.any (fun p => p.1 == k)
  · simp only [setRespond, if_pos h, containsKey, List.any_map]
    refine congrArg (fun f => List.any r f) (funext fun p => ?_)
    by_cases hp : p.1 = k
    · simp [Function.comp, hp, Ne.symm hne, hne]
    · simp [Function.comp, hp]
  · simp only [setRespond, if_neg h, containsKey, List.any_append]
    simp [Ne.symm hne, hne]

theorem containsKey_delRespond_self (r : RespondMap) (s : Nat) :
    containsKey (delRespond r s) s = false := by
  simp only [containsKey, delRespond]
  rw [List.any_eq_false]
  intro p hp
  rcases List.mem_filter.1 hp with ⟨_, hpk⟩
  simp only [bne_iff_ne, ne_eq] at hpk
  simp [hpk]

theorem containsKey_delRespond_of_false (r : RespondMap) (k s : Nat)
    (h : containsKey r s = false) :
    containsKey (delRespond r k) s = false := by
  simp only [containsKey, delRespond] at h ⊢
  rw [List.any_eq_false] at h ⊢
  intro p hp
  exact h p (List.mem_filter.1 hp).1

theorem containsKey_delRespond_of_true (r : RespondMap) (k s : Nat)
    (hks : k ≠ s) (h : containsKey r s = true) :
    containsKey (delRespond r k) s = true := by
  simp only [containsKey, List.any_eq_true] at h ⊢
  rcases h with ⟨p, hp, he⟩
  refine ⟨p, List.mem_filter.2 ⟨hp, ?_⟩, he⟩
  simp only [beq_iff_eq] at he
  simp [he, Ne.symm hks]

theorem containsKey_foldlDel_of_false (seqs : List Nat) (r : RespondMap)
    (s : Nat) (h : containsKey r s = false) :
    containsKey (seqs.foldl delRespond r) s = false := by
  induction seqs generalizing r with
  | nil => exact h
  | cons a rest ih =>
    exact ih (delRespond r a) (containsKey_delRespond_of_false r a s h)

theorem containsKey_foldlDel_of_mem (seqs : List Nat) (r : RespondMap)
    (s : Nat) (h : s ∈ seqs) :
    containsKey (seqs.foldl delRespond r) s = false := by
  induction seqs generalizing r with
  | nil => cases h
  | cons a rest ih =>
    rcases List.mem_cons.1 h with h1 | h2
    · subst h1
      by_cases hmem : s ∈ rest
      · exact ih (delRespond r s) hmem
      · exact containsKey_foldlDel_of_false rest (delRespond r s) s
          (containsKey_delRespond_self r s)
    · exact ih (delRespond r a) h2

theorem containsKey_foldlDel_of_true (seqs : List Nat) (r : RespondMap)
    (s : Nat) (hmem : s ∉ seqs) (h : containsKey r s = true) :
    containsKey (seqs.foldl delRespond r) s = true := by
  induction seqs generalizing r with
  | nil => exact h
  | cons a rest ih =>
    have ha : a ≠ s := fun he => hmem (he ▸ List.mem_cons_self a rest)
    exact ih (delRespond r a) (fun hr => hmem (List.mem_cons_of_mem a hr))
      (containsKey_delRespond_of_true r a s ha h)

theorem containsKey_msgStep_del (agentId : String) (m : ConvMap)
    (bodyDialogId : String) (r : RespondMap) (s : Nat) (change : MsgChange)
    (h : isReceiptDelete agentId m s change = true) :
    containsKey (msgStep agentId m bodyDialogId r change) s = false := by
  cases hev : change.event with
  | acceptStatusEvent status sequenceList =>
    simp only [isReceiptDelete, hev, Bool.and_eq_true, beq_iff_eq] at h
    obtain ⟨htr, horig, hmem⟩ := h
    simp only [msgStep, hev, htr, if_true, horig, if_pos rfl]
    exact containsKey_foldlDel_of_mem sequenceList r s (List.elem_iff.1 hmem)
  | contentEvent message => simp [isReceiptDelete, hev] at h
  | chatStateEvent c => simp [isReceiptDelete, hev] at h
  | richContentEvent => simp [isReceiptDelete, hev] at h

theorem containsKey_msgStep_notAdd (agentId : String) (m : ConvMap)
    (bodyDialogId : String) (r : RespondMap) (s : Nat) (change : MsgChange)
    (h : isContentAdd agentId m s change = false)
    (h0 : containsKey r s = false) :
    containsKey (msgStep agentId m bodyDialogId r change) s = false := by
  by_cases htr : (m change.dialogId).isSome
  · cases hev : change.event with
    | contentEvent message =>
      simp only [isContentAdd, hev, htr, Bool.true_and] at h
      by_cases horig : change.originatorId = agentId
      · simp [msgStep, hev, htr, horig, h0]
      · have hseq : change.sequence ≠ s := by
          simp only [Bool.and_eq_false_iff, beq_eq_false_iff_ne, ne_eq,
            bne_eq_false_iff_eq] at h
          rcases h with h | h
          · exact h
          · exact absurd h horig
        simp only [msgStep, hev, htr, if_true, if_pos horig]
        rw [containsKey_setRespond_ne r change.sequence s _ (Ne.symm hseq)]
        exact h0
    | acceptStatusEvent status sequenceList =>
      by_cases horig : change.originatorId = agentId
      · simp only [msgStep, hev, htr, if_true, if_pos horig]
        exact containsKey_foldlDel_of_false sequenceList r s h0
      · simp [msgStep, hev, htr, horig, h0]
    | chatStateEvent c => simp [msgStep, hev, htr, h0]
    | richContentEvent => simp [msgStep, hev, htr, h0]
  · simp only [Bool.not_eq_true] at htr
    simp [msgStep, htr, h0]

theorem containsKey_msgStep_notDel (agentId : String) (m : ConvMap)
    (bodyDialogId : String) (r : RespondMap) (s : Nat) (change : MsgChange)
    (h : isReceiptDelete agentId m s change = false)
    (h1 : containsKey r s = true) :
    containsKey (msgStep agentId m bodyDialogId r change) s = true := by
  by_cases htr : (m change.dialogId).isSome
  · cases hev : change.event with
    | contentEvent message =>
      by_cases horig : change.originatorId = agentId
      · simp [msgStep, hev, htr, horig, h1]
      · simp only [msgStep, hev, htr, if_true, if_pos horig]
        by_cases hseq : change.sequence = s
        · subst hseq
          exact containsKey_setRespond_self r change.sequence _
        · rw [containsKey_setRespond_ne r change.sequence s _ (Ne.symm hseq)]
          exact h1
    | acceptStatusEvent status sequenceList =>
      by_cases horig : change.originatorId = agentId
      · have hmem : s ∉ sequenceList := by
          simp only [isReceiptDelete, hev, htr, Bool.true_and,
            Bool.and_eq_false_iff, beq_eq_false_iff_ne, ne_eq] at h
          rcases h with h | h
          · exact absurd horig h
          · intro hs
            rw [show sequenceList.contains s = true from List.elem_iff.2 hs]
              at h
            cases h
        simp only [msgStep, hev, htr, if_true, if_pos horig]
        exact containsKey_foldlDel_of_true sequenceList r s hmem h1
      · simp [msgStep, hev, htr, horig, h1]
    | chatStateEvent c => simp [msgStep, hev, htr, h1]
    | richContentEvent => simp [msgStep, hev, htr, h1]
  · simp only [Bool.not_eq_true] at htr
    simp [msgStep, htr, h1]

theorem containsKey_msgStep_add (agentId : String) (m : ConvMap)
    (bodyDialogId : String) (r : RespondMap) (s : Nat) (change : MsgChange)
    (h : isContentAdd agentId m s change = true) :
    containsKey (msgStep agentId m bodyDialogId r change) s = true := by
  cases hev : change.event with
  | contentEvent message =>
    simp only [isContentAdd, hev, Bool.and_eq_true, beq_iff_eq,
      bne_iff_ne, ne_eq] at h
    obtain ⟨htr, hseq, horig⟩ := h
    simp only [msgStep, hev, htr, if_true, if_pos horig]
    subst hseq
    exact containsKey_setRespond_self r change.sequence _
  | acceptStatusEvent status sequenceList => simp [isContentAdd, hev] at h
  | chatStateEvent c => simp [isContentAdd, hev] at h
  | richContentEvent => simp [isContentAdd, hev] at h

theorem containsKey_fold_notAdd (agentId : String) (m : ConvMap)
    (bodyDialogId : String) (changes : List MsgChange) (r : RespondMap)
    (s : Nat)
    (h : changes.all (fun ch => !(isContentAdd agentId m s ch)) = true)
    (h0 : containsKey r s = false) :
    containsKey (changes.foldl (msgStep agentId m bodyDialogId) r) s
      = false := by
  induction changes generalizing r with
  | nil => exact h0
  | cons c cs ih =>
    rw [List.all_cons, Bool.and_eq_true] at h
    exact ih _ h.2 (containsKey_msgStep_notAdd agentId m bodyDialogId r s c
      (by simpa using h.1) h0)

theorem containsKey_fold_notDel (agentId : String) (m : ConvMap)
    (bodyDialogId : String) (changes : List MsgChange) (r : RespondMap)
    (s : Nat)
    (h : changes.all (fun ch => !(isReceiptDelete agentId m s ch)) = true)
    (h1 : containsKey r s = true) :
    containsKey (changes.foldl (msgStep agentId m bodyDialogId) r) s
      = true := by
  induction changes generalizing r with
  | nil => exact h1
  | cons c cs ih =>
    rw [List.all_cons, Bool.and_eq_true] at h
    exact ih _ h.2 (containsKey_msgStep_notDel agentId m bodyDialogId r s c
      (by simpa using h.1) h1)

/-- Number of `respond` entries stored under key `s`. -/
def keyCount (r : RespondMap) (s : Nat) : Nat :=
  r.countP (fun p => p.1 == s)

/-- The keys of the `respond` object are pairwise distinct. -/
def keysNodup (r : RespondMap) : Prop :=
  (r.map Prod.fst).Nodup

theorem keyCount_eq_zero (r : RespondMap) (s : Nat)
    (h : containsKey r s = false) : keyCount r s = 0 := by
  induction r with
  | nil => rfl
  | cons p rest ih =>
    simp only [containsKey, List.any_cons, Bool.or_eq_false_iff] at h
    simp only [keyCount, List.countP_cons, h.1, if_false]
    exact ih (by simp [containsKey, h.2])

theorem keyCount_eq_one (r : RespondMap) (s : Nat)
    (hnd : keysNodup r) (h : containsKey r s = true) : keyCount r s = 1 := by
  induction r with
  | nil => cases h
  | cons p rest ih =>
    simp only [keysNodup, List.map_cons, List.nodup_cons] at hnd
    simp only [containsKey, List.any_cons, Bool.or_eq_true] at h
    by_cases hp : p.1 = s
    · have hrest : containsKey rest s = false := by
        subst hp
        rw [containsKey]
        rw [List.any_eq_false]
        intro q hq he
        exact hnd.1 (List.mem_map.2 ⟨q, hq, beq_iff_eq.1 he⟩)
      simp only [keyCount, List.countP_cons, hp, beq_self_eq_true, if_true]
      rw [show (rest.countP fun p => p.1 == s) = keyCount rest s from rfl,
        keyCount_eq_zero rest s hrest]
    · have hb : (p.1 == s) = false := beq_eq_false_iff_ne.2 hp
      rcases h with h | h
      · rw [hb] at h
        cases h
      · simp only [keyCount, List.countP_cons, hb, if_false]
        exact ih hnd.2 h

theorem keysNodup_setRespond (r : RespondMap) (k : Nat) (v : RespondEntry)
    (hnd : keysNodup r) : keysNodup (setRespond r k v) := by
  by_cases h : r.any (fun p => p.1 == k)
  · simp only [setRespond, if_pos h, keysNodup, List.map_map]
    have : ((fun p : Nat × RespondEntry => p.1) ∘
        fun p => if p.1 = k then (k, v) else p) =
        fun p : Nat × RespondEntry => p.1 := by
      funext p
      by_cases hp : p.1 = k <;> simp [Function.comp, hp]
    rw [show (Prod.fst ∘ fun p : Nat × RespondEntry =>
      if p.1 = k then (k, v) else p) = Prod.fst from by
        funext p
        by_cases hp : p.1 = k <;> simp [Function.comp, hp]]
    exact hnd
  · simp only [setRespond, if_neg h, keysNodup, List.map_append,
      List.map_cons, List.map_nil]
    rw [List.nodup_append]
    refine ⟨hnd, List.nodup_singleton k, ?_⟩
    intro a ha hb
    rcases List.mem_singleton.1 hb with rfl
    rcases List.mem_map.1 ha with ⟨p, hp, hpa⟩
    exact h (List.any_eq_true.2 ⟨p, hp, beq_iff_eq.2 hpa⟩)

theorem keysNodup_delRespond (r : RespondMap) (k : Nat)
    (hnd : keysNodup r) : keysNodup (delRespond r k) := by
  exact List.Nodup.sublist (List.Sublist.map Prod.fst
    (List.filter_sublist r)) hnd

theorem keysNodup_foldlDel (seqs : List Nat) (r : RespondMap)
    (hnd : keysNodup r) : keysNodup (seqs.foldl delRespond r) := by
  induction seqs generalizing r with
  | nil => exact hnd
  | cons a rest ih => exact ih _ (keysNodup_delRespond r a hnd)

theorem keysNodup_msgStep (agentId : String) (m : ConvMap)
    (bodyDialogId : String) (r : RespondMap) (change : MsgChange)
    (hnd : keysNodup r) :
    keysNodup (msgStep agentId m bodyDialogId r change) := by
  by_cases htr : (m change.dialogId).isSome
  · cases hev : change.event with
    | contentEvent message =>
      by_cases horig : change.originatorId = agentId
      · simpa [msgStep, hev, htr, horig] using hnd
      · simp only [msgStep, hev, htr, if_true, if_pos horig]
        exact keysNodup_setRespond r change.sequence _ hnd
    | acceptStatusEvent status sequenceList =>
      by_cases horig : change.originatorId = agentId
      · simp only [msgStep, hev, htr, if_true, if_pos horig]
        exact keysNodup_foldlDel sequenceList r hnd
      · simpa [msgStep, hev, htr, horig] using hnd
    | chatStateEvent c => simpa [msgStep, hev, htr] using hnd
    | richContentEvent => simpa [msgStep, hev, htr] using hnd
  · simp only [Bool.not_eq_true] at htr
    simpa [msgStep, htr] using hnd

theorem keysNodup_buildRespond (agentId : String) (m : ConvMap)
    (bodyDialogId : String) (changes : List MsgChange) :
    keysNodup (buildRespond agentId m bodyDialogId changes) := by
  rw [buildRespond]
  have h : ∀ (r : RespondMap), keysNodup r →
      keysNodup (changes.foldl (msgStep agentId m bodyDialogId) r) := by
    induction changes with
    | nil => exact fun r h => h
    | cons c cs ih =>
      intro r hr
      exact ih _ (keysNodup_msgStep agentId m bodyDialogId r c hr)
  exact h [] (by simp [keysNodup])

/-- Every stored entry's `sequence` field equals its key. -/
def entriesGood (r : RespondMap) : Prop :=
  ∀ p ∈ r, (Prod.snd p).sequence = p.1

theorem entriesGood_setRespond (r : RespondMap) (k : Nat) (v : RespondEntry)
    (hv : v.sequence = k) (hg : entriesGood r) :
    entriesGood (setRespond r k v) := by
  intro p hp
  by_cases h : r.any (fun q => q.1 == k)
  · rw [setRespond, if_pos h] at hp
    rcases List.mem_map.1 hp with ⟨q, hq, hqe⟩
    by_cases hqk : q.1 = k
    · rw [if_pos hqk] at hqe
      subst hqe
      exact hv
    · rw [if_neg hqk] at hqe
      subst hqe
      exact hg q hq
  · rw [setRespond, if_neg h] at hp
    rcases List.mem_append.1 hp with hp | hp
    · exact hg p hp
    · rcases List.mem_singleton.1 hp with rfl
      exact hv

theorem entriesGood_foldlDel (seqs : List Nat) (r : RespondMap)
    (hg : entriesGood r) : entriesGood (seqs.foldl delRespond r) := by
  induction seqs generalizing r with
  | nil => exact hg
  | cons a rest ih =>
    refine ih _ (fun p hp => hg p ?_)
    exact (List.mem_filter.1 hp).1

theorem entriesGood_msgStep (agentId : String) (m : ConvMap)
    (bodyDialogId : String) (r : RespondMap) (change : MsgChange)
    (hg : entriesGood r) :
    entriesGood (msgStep agentId m bodyDialogId r change) := by
  by_cases htr : (m change.dialogId).isSome
  · cases hev : change.event with
    | contentEvent message =>
      by_cases horig : change.originatorId = agentId
      · simpa [msgStep, hev, htr, horig] using hg
      · simp only [msgStep, hev, htr, if_true, if_pos horig]
        exact entriesGood_setRespond r change.sequence _ rfl hg
    | acceptStatusEvent status sequenceList =>
      by_cases horig : change.originatorId = agentId
      · simp only [msgStep, hev, htr, if_true, if_pos horig]
        exact entriesGood_foldlDel sequenceList r hg
      · simpa [msgStep, hev, htr, horig] using hg
    | chatStateEvent c => simpa [msgStep, hev, htr] using hg
    | richContentEvent => simpa [msgStep, hev, htr] using hg
  · simp only [Bool.not_eq_true] at htr
    simpa [msgStep, htr] using hg

theorem entriesGood_buildRespond (agentId : String) (m : ConvMap)
    (bodyDialogId : String) (changes : List MsgChange) :
    entriesGood (buildRespond agentId m bodyDialogId changes) := by
  rw [buildRespond]
  have h : ∀ (r : RespondMap), entriesGood r →
      entriesGood (changes.foldl (msgStep agentId m bodyDialogId) r) := by
    induction changes with
    | nil => exact fun r h => h
    | cons c cs ih =>
      intro r hr
      exact ih _ (entriesGood_msgStep agentId m bodyDialogId r c hr)
  exact h [] (by intro p hp; cases hp)

/-- Is this effect an emitted content notification for sequence `s`? -/
def isContentNotifFor (s : Nat) : Effect → Bool
  | Effect.contentNotification _ sequence _ _ => sequence == s
  | _ => false

/-- Is this effect a read-receipt (`markAsRead`) call covering sequence `s`? -/
def isMarkAsReadFor (s : Nat) : Effect → Bool
  | Effect.markAsRead _ sequenceList => sequenceList.contains s
  | _ => false

theorem countP_flatMap {α β : Type} (l : List α) (f : α → List β)
    (q : β → Bool) :
    (l.flatMap f).countP q = (l.map fun a => (f a).countP q).sum := by
  induction l with
  | nil => rfl
  | cons a rest ih => simp [List.flatMap_cons, List.countP_append, ih]

theorem countP_emit_content (agentId : String)
    (conversationDetails : ConversationDetails) (s : Nat)
    (ce : RespondEntry) :
    (emitForEntry agentId conversationDetails ce).countP (isContentNotifFor s)
      = if ce.sequence == s then 1 else 0 := by
  by_cases h : getRole conversationDetails agentId = some "ASSIGNED_AGENT" <;>
    by_cases hs : ce.sequence = s <;>
      simp [emitForEntry, h, hs, isContentNotifFor, List.countP_cons]

theorem countP_emit_markread (agentId : String)
    (conversationDetails : ConversationDetails) (s : Nat)
    (ce : RespondEntry) :
    (emitForEntry agentId conversationDetails ce).countP (isMarkAsReadFor s)
      = if getRole conversationDetails agentId = some "ASSIGNED_AGENT" then
          (if ce.sequence == s then 1 else 0)
        else 0 := by
  by_cases h : getRole conversationDetails agentId = some "ASSIGNED_AGENT" <;>
    by_cases hs : ce.sequence = s <;>
      simp [emitForEntry, h, hs, isMarkAsReadFor, List.countP_cons,
        List.contains] <;>
    omega

theorem sum_map_ite_countP {α : Type} (l : List α) (q : α → Bool) :
    (l.map fun a => if q a then 1 else 0).sum = l.countP q := by
  induction l with
  | nil => rfl
  | cons a rest ih =>
    by_cases h : q a <;> simp [List.countP_cons, h, ih, Nat.add_comm]

/-- The emitted content notifications for sequence `s` are exactly the
`respond` entries stored under key `s`. -/
theorem countP_respond_content (agentId : String)
    (conversationDetails : ConversationDetails) (s : Nat) (r : RespondMap)
    (hg : entriesGood r) :
    (r.flatMap fun p => emitForEntry agentId conversationDetails p.2).countP
        (isContentNotifFor s) = keyCount r s := by
  rw [countP_flatMap]
  have hmap : (r.map fun p =>
      (emitForEntry agentId conversationDetails p.2).countP
        (isContentNotifFor s)) =
      r.map fun p => if p.1 == s then 1 else 0 := by
    apply List.map_congr_left
    intro p hp
    rw [countP_emit_content, hg p hp]
  rw [hmap, sum_map_ite_countP]
  rfl

/-- The issued `markAsRead` calls covering sequence `s` are the entries under
key `s` when the bot's role is ASSIGNED_AGENT, and none otherwise. -/
theorem countP_respond_markread (agentId : String)
    (conversationDetails : ConversationDetails) (s : Nat) (r : RespondMap)
    (hg : entriesGood r) :
    (r.flatMap fun p => emitForEntry agentId conversationDetails p.2).countP
        (isMarkAsReadFor s) =
      if getRole conversationDetails agentId = some "ASSIGNED_AGENT" then
        keyCount r s
      else 0 := by
  rw [countP_flatMap]
  by_cases h : getRole conversationDetails agentId = some "ASSIGNED_AGENT"
  · have hmap : (r.map fun p =>
        (emitForEntry agentId conversationDetails p.2).countP
          (isMarkAsReadFor s)) =
        r.map fun p => if p.1 == s then 1 else 0 := by
      apply List.map_congr_left
      intro p hp
      rw [countP_emit_markread, if_pos h, hg p hp]
    rw [hmap, sum_map_ite_countP, if_pos h]
    rfl
  · have hmap : (r.map fun p =>
        (emitForEntry agentId conversationDetails p.2).countP
          (isMarkAsReadFor s)) = r.map fun _ => 0 := by
      apply List.map_congr_left
      intro p hp
      rw [countP_emit_markread, if_neg h]
    rw [hmap, if_neg h]
    simp

theorem containsKey_ne_nil (r : RespondMap) (s : Nat)
    (h : containsKey r s = true) : r.isEmpty = false := by
  cases r with
  | nil => cases h
  | cons p rest => rfl

/-- A tracked entry for `dlg1` as `_updateMyConversation` would leave it. -/
def demoTracked : TrackedConversation :=
  { convId := some "dlg1", conversationDetails := some demoDetails,
    consumerProfile := none, lastContentEventNotification := none }

/-- A table tracking exactly `dlg1`. -/
def demoMap : ConvMap := ConvMap.insert emptyConvMap "dlg1" demoTracked

/-- A consumer content event with sequence 5 on `dlg1`. -/
def demoContentChange : MsgChange :=
  { dialogId := "dlg1", sequence := 5, originatorId := "consumerA",
    originatorMetadata := { role := some "CONSUMER" },
    event := MsgEvent.contentEvent "hello" }

/-- A bot-originated read receipt covering sequence 5 on `dlg1`. -/
def demoReceiptChange : MsgChange :=
  { dialogId := "dlg1", sequence := 6, originatorId := "botAgent",
    originatorMetadata := { role := some "ASSIGNED_AGENT" },
    event := MsgEvent.acceptStatusEvent "READ" [5] }

/-- When sequence `s` is absent from the final `respond` map, the handler
emits no content notification for `s` (whatever the tracking state). -/
theorem handle_countP_content_zero (agentId : String) (m : ConvMap)
    (body : MessagingEventBody) (s : Nat)
    (hkey : containsKey (buildRespond agentId m body.dialogId body.changes) s
      = false) :
    ((handleMessagingEvent agentId m body).1).countP (isContentNotifFor s)
      = 0 := by
  cases hm : m body.dialogId with
  | none => simp [handleMessagingEvent, hm]
  | some entry =>
    by_cases he :
        (buildRespond agentId m body.dialogId body.changes).isEmpty
    · simp [handleMessagingEvent, hm, he]
    · cases hcd : entry.conversationDetails with
      | none => simp [handleMessagingEvent, hm, he, hcd]
      | some cd =>
        simp only [handleMessagingEvent, hm, he, Bool.false_eq_true,
          if_false, hcd]
        rw [countP_respond_content agentId cd s _
          (entriesGood_buildRespond agentId m body.dialogId body.changes)]
        exact keyCount_eq_zero _ s hkey

/-- When sequence `s` is present in the final `respond` map and the
conversation is tracked with details, the handler emits exactly one content
notification for `s` and issues a `markAsRead` covering `s` exactly when the
bot's role is ASSIGNED_AGENT. -/
theorem handle_counts_of_present (agentId : String) (m : ConvMap)
    (body : MessagingEventBody) (s : Nat) (entry : TrackedConversation)
    (cd : ConversationDetails)
    (hm : m body.dialogId = some entry)
    (hcd : entry.conversationDetails = some cd)
    (hkey : containsKey (buildRespond agentId m body.dialogId body.changes) s
      = true) :
    ((handleMessagingEvent agentId m body).1).countP (isContentNotifFor s)
      = 1 ∧
    ((handleMessagingEvent agentId m body).1).countP (isMarkAsReadFor s)
      = (if getRole cd agentId = some "ASSIGNED_AGENT" then 1 else 0) := by
  have hnd := keysNodup_buildRespond agentId m body.dialogId body.changes
  have hg := entriesGood_buildRespond agentId m body.dialogId body.changes
  have hne := containsKey_ne_nil _ s hkey
  have h1 := keyCount_eq_one _ s hnd hkey
  simp only [handleMessagingEvent, hm, hne, Bool.false_eq_true, if_false, hcd]
  constructor
  · rw [countP_respond_content agentId cd s _ hg, h1]
  · rw [countP_respond_markread agentId cd s _ hg, h1]

/-- Claim C2: in a messaging-event batch, a content event from a non-self
originator on a tracked dialog that is followed (later in the same batch) by
a self-originated read-receipt on a tracked dialog covering its sequence
produces no content notification for that sequence — provided no later
content event in the batch reuses that sequence (sequence numbers identify
messages). -/
theorem claim_C2_receipt_cancels_content (agentId bodyDialogId : String)
    (m : ConvMap) (s : Nat) (l1 l2 l3 : List MsgChange) (c d : MsgChange)
    (hc : isContentAdd agentId m s c = true)
    (hd : isReceiptDelete agentId m s d = true)
    (hl3 : l3.all (fun ch => !(isContentAdd agentId m s ch)) = true) :
    ((handleMessagingEvent agentId m
        ⟨bodyDialogId, l1 ++ c :: l2 ++ d :: l3⟩).1).countP
      (isContentNotifFor s) = 0 := by
  apply handle_countP_content_zero
  show containsKey
    (buildRespond agentId m bodyDialogId (l1 ++ c :: l2 ++ d :: l3)) s = false
  rw [buildRespond, List.foldl_append, List.foldl_cons, List.foldl_append,
    List.foldl_cons]
  exact containsKey_fold_notAdd agentId m bodyDialogId l3 _ s hl3
    (containsKey_msgStep_del agentId m bodyDialogId _ s d hd)

theorem claim_C2_witness :
    (isContentAdd "botAgent" demoMap 5 demoContentChange = true ∧
     isReceiptDelete "botAgent" demoMap 5 demoReceiptChange = true ∧
     (([] : List MsgChange).all
       (fun ch => !(isContentAdd "botAgent" demoMap 5 ch)) = true)) ∧
    ((handleMessagingEvent "botAgent" demoMap
        ⟨"dlg1", [] ++ demoContentChange :: [] ++ demoReceiptChange :: []⟩).1).countP
      (isContentNotifFor 5) = 0 :=
  ⟨⟨by decide, by decide, by decide⟩,
   claim_C2_receipt_cancels_content "botAgent" "dlg1" demoMap 5 [] [] []
     demoContentChange demoReceiptChange (by decide) (by decide) (by decide)⟩

/-- Claim C3: in a messaging-event batch on a tracked conversation (entry
with details present), a content event from a non-self originator on a
tracked dialog with no self-originated covering read-receipt anywhere in the
batch produces exactly one content notification for its sequence, and a
`markAsRead` call covering that sequence is issued exactly when the bot's
role in the conversation is ASSIGNED_AGENT. -/
theorem claim_C3_unreceipted_content_notifies (agentId bodyDialogId : String)
    (m : ConvMap) (s : Nat) (entry : TrackedConversation)
    (cd : ConversationDetails) (l1 l2 : List MsgChange) (c : MsgChange)
    (hm : m bodyDialogId = some entry)
    (hcd : entry.conversationDetails = some cd)
    (hc : isContentAdd agentId m s c = true)
    (hnod : (l1 ++ c :: l2).all
      (fun ch => !(isReceiptDelete agentId m s ch)) = true) :
    ((handleMessagingEvent agentId m ⟨bodyDialogId, l1 ++ c :: l2⟩).1).countP
      (isContentNotifFor s) = 1 ∧
    ((handleMessagingEvent agentId m ⟨bodyDialogId, l1 ++ c :: l2⟩).1).countP
      (isMarkAsReadFor s)
      = (if getRole cd agentId = some "ASSIGNED_AGENT" then 1 else 0) := by
  have hl2 : l2.all (fun ch => !(isReceiptDelete agentId m s ch)) = true := by
    rw [List.all_append, Bool.and_eq_true, List.all_cons,
      Bool.and_eq_true] at hnod
    exact hnod.2.2
  apply handle_counts_of_present agentId m _ s entry cd hm hcd
  show containsKey (buildRespond agentId m bodyDialogId (l1 ++ c :: l2)) s
    = true
  rw [buildRespond, List.foldl_append, List.foldl_cons]
  exact containsKey_fold_notDel agentId m bodyDialogId l2 _ s hl2
    (containsKey_msgStep_add agentId m bodyDialogId _ s c hc)

theorem claim_C3_witness :
    (demoMap "dlg1" = some demoTracked ∧
     demoTracked.conversationDetails = some demoDetails ∧
     isContentAdd "botAgent" demoMap 5 demoContentChange = true ∧
     (([] ++ demoContentChange :: ([] : List MsgChange)).all
       (fun ch => !(isReceiptDelete "botAgent" demoMap 5 ch)) = true)) ∧
    (((handleMessagingEvent "botAgent" demoMap
        ⟨"dlg1", [] ++ demoContentChange :: []⟩).1).countP
      (isContentNotifFor 5) = 1 ∧
     ((handleMessagingEvent "botAgent" demoMap
        ⟨"dlg1", [] ++ demoContentChange :: []⟩).1).countP
      (isMarkAsReadFor 5)
      = (if getRole demoDetails "botAgent" = some "ASSIGNED_AGENT" then 1
         else 0)) :=
  ⟨⟨by decide, by decide, by decide, by decide⟩,
   claim_C3_unreceipted_content_notifies "botAgent" "dlg1" demoMap 5
     demoTracked demoDetails [] [] demoContentChange (by decide) (by decide)
     (by decide) (by decide)⟩

/-- Claim C10: a self-originated read-receipt cancels only content events
that occur earlier in the batch's change list: when the covering receipt
precedes the non-self content event with that sequence (and no covering
receipt follows it), one content notification for that sequence is still
emitted. -/
theorem claim_C10_receipt_only_cancels_earlier (agentId bodyDialogId : String)
    (m : ConvMap) (s : Nat) (entry : TrackedConversation)
    (cd : ConversationDetails) (l1 l2 l3 : List MsgChange) (d c : MsgChange)
    (hm : m bodyDialogId = some entry)
    (hcd : entry.conversationDetails = some cd)
    (hd : isReceiptDelete agentId m s d = true)
    (hc : isContentAdd agentId m s c = true)
    (hl3 : l3.all (fun ch => !(isReceiptDelete agentId m s ch)) = true) :
    ((handleMessagingEvent agentId m
        ⟨bodyDialogId, l1 ++ d :: l2 ++ c :: l3⟩).1).countP
      (isContentNotifFor s) = 1 := by
  refine (handle_counts_of_present agentId m _ s entry cd hm hcd ?_).1
  show containsKey
    (buildRespond agentId m bodyDialogId (l1 ++ d :: l2 ++ c :: l3)) s = true
  rw [buildRespond, List.foldl_append, List.foldl_cons, List.foldl_append,
    List.foldl_cons]
  exact containsKey_fold_notDel agentId m bodyDialogId l3 _ s hl3
    (containsKey_msgStep_add agentId m bodyDialogId _ s c hc)

theorem claim_C10_witness :
    (demoMap "dlg1" = some demoTracked ∧
     demoTracked.conversationDetails = some demoDetails ∧
     isReceiptDelete "botAgent" demoMap 5 demoReceiptChange = true ∧
     isContentAdd "botAgent" demoMap 5 demoContentChange = true ∧
     (([] : List MsgChange).all
       (fun ch => !(isReceiptDelete "botAgent" demoMap 5 ch)) = true)) ∧
    ((handleMessagingEvent "botAgent" demoMap
        ⟨"dlg1", [] ++ demoReceiptChange :: [] ++ demoContentChange :: []⟩).1).countP
      (isContentNotifFor 5) = 1 :=
  ⟨⟨by decide, by decide, by decide, by decide, by decide⟩,
   claim_C10_receipt_only_cancels_earlier "botAgent" "dlg1" demoMap 5
     demoTracked demoDetails [] [] [] demoReceiptChange demoContentChange
     (by decide) (by decide) (by decide) (by decide) (by decide)⟩

/-! ### Infrastructure for claim C5 (tracking invariant) -/

/-- The table after one conversation-change record (ignoring effects). -/
def stepMap (m : ConvMap) (change : ConversationChange) : ConvMap :=
  (processConvChange m change).map

/-- When no change in the batch throws, the final table is the left fold of
the per-change table updates. -/
theorem map_of_no_exn (changes : List ConversationChange) (m : ConvMap)
    (h : (processConvChanges m changes).exn = false) :
    (processConvChanges m changes).map = changes.foldl stepMap m := by
  induction changes generalizing m with
  | nil => rfl
  | cons c rest ih =>
    by_cases hc : (processConvChange m c).exn
    · exfalso
      simp [processConvChanges, hc] at h
    · simp only [Bool.not_eq_true] at hc
      simp only [processConvChanges, hc, Bool.false_eq_true, if_false] at h ⊢
      rw [List.foldl_cons]
      exact ih ((processConvChange m c).map) h

theorem stepMap_isSome_of_upsert (m : ConvMap) (change : ConversationChange)
    (conversationId : String) (h1 : change.type = "UPSERT")
    (h2 : change.result.convId = conversationId) :
    ((stepMap m change) conversationId).isSome = true := by
  by_cases htr : (m change.result.convId).isSome
  · rw [h2] at htr
    simp [stepMap, processConvChange, h1, htr, updateMyConversation,
      ConvMap.insert, h2]
  · simp only [Bool.not_eq_true] at htr
    rw [h2] at htr
    cases hcid : consumerId change.result.conversationDetails with
    | none =>
      simp [stepMap, processConvChange, h1, htr, hcid, ConvMap.insert, h2]
    | some cid =>
      simp [stepMap, processConvChange, h1, htr, hcid, updateMyConversation,
        ConvMap.insert, h2]

theorem stepMap_delete (m : ConvMap) (change : ConversationChange)
    (conversationId : String) (h1 : change.type = "DELETE")
    (h2 : change.result.convId = conversationId) :
    (stepMap m change) conversationId = none := by
  simp [stepMap, processConvChange, h1, ConvMap.erase, h2]

theorem stepMap_other (m : ConvMap) (change : ConversationChange)
    (conversationId : String)
    (h : change.result.convId ≠ conversationId ∨
      (change.type ≠ "UPSERT" ∧ change.type ≠ "DELETE")) :
    (stepMap m change) conversationId = m conversationId := by
  rcases h with h | h
  · by_cases h1 : change.type = "UPSERT"
    · by_cases htr : (m change.result.convId).isSome
      · simp [stepMap, processConvChange, h1, htr, updateMyConversation,
          ConvMap.insert, Ne.symm h]
      · simp only [Bool.not_eq_true] at htr
        cases hcid : consumerId change.result.conversationDetails with
        | none =>
          simp [stepMap, processConvChange, h1, htr, hcid, ConvMap.insert,
            Ne.symm h]
        | some cid =>
          simp [stepMap, processConvChange, h1, htr, hcid,
            updateMyConversation, ConvMap.insert, Ne.symm h]
    · by_cases h2 : change.type = "DELETE"
      · simp [stepMap, processConvChange, h1, h2, ConvMap.erase, Ne.symm h]
      · simp [stepMap, processConvChange, h1, h2]
  · simp [stepMap, processConvChange, h.1, h.2]

/-- The spec's side condition "not followed by a delete": no change in the
list is a delete for this conversation id. -/
def noDeleteFor (conversationId : String)
    (l : List ConversationChange) : Bool :=
  l.all (fun c => !(c.type == "DELETE" && c.result.convId == conversationId))

/-- The spec's characterization of when a conversation is tracked: some
upsert for it was received and is not followed by a delete for it. -/
def receivedUpsertNotDeleted (conversationId : String) :
    List ConversationChange → Bool
  | [] => false
  | c :: rest =>
    (c.type == "UPSERT" && (c.result.convId == conversationId &&
        noDeleteFor conversationId rest))
      || receivedUpsertNotDeleted conversationId rest

theorem tracked_iff_aux (conversationId : String)
    (changes : List ConversationChange) :
    ∀ (m : ConvMap),
      ((changes.foldl stepMap m) conversationId).isSome =
        (receivedUpsertNotDeleted conversationId changes
          || ((m conversationId).isSome &&
              noDeleteFor conversationId changes)) := by
  induction changes with
  | nil =>
    intro m
    simp [receivedUpsertNotDeleted, noDeleteFor]
  | cons c rest ih =>
    intro m
    rw [List.foldl_cons, ih (stepMap m c)]
    by_cases hu : c.type = "UPSERT" ∧ c.result.convId = conversationId
    · have hs := stepMap_isSome_of_upsert m c conversationId hu.1 hu.2
      have hA : (c.type == "UPSERT") = true := beq_iff_eq.2 hu.1
      have hB : (c.result.convId == conversationId) = true := beq_iff_eq.2 hu.2
      have hC : (c.type == "DELETE") = false := by
        rw [beq_eq_false_iff_ne, hu.1]
        decide
      simp only [receivedUpsertNotDeleted, noDeleteFor, List.all_cons, hA, hB,
        hC, hs, Bool.false_and, Bool.not_false, Bool.true_and]
      cases hr : receivedUpsertNotDeleted conversationId rest <;>
        cases hn : rest.all
          (fun c => !(c.type == "DELETE" && c.result.convId == conversationId)) <;>
        cases hm' : (m conversationId).isSome <;> simp [noDeleteFor, hn]
    · by_cases hd' : c.type = "DELETE" ∧ c.result.convId = conversationId
      · have hs := stepMap_delete m c conversationId hd'.1 hd'.2
        have hA : (c.type == "UPSERT") = false := by
          rw [beq_eq_false_iff_ne, hd'.1]
          decide
        have hB : (c.result.convId == conversationId) = true :=
          beq_iff_eq.2 hd'.2
        have hC : (c.type == "DELETE") = true := beq_iff_eq.2 hd'.1
        simp only [receivedUpsertNotDeleted, noDeleteFor, List.all_cons, hA,
          hB, hC, hs, Bool.false_and, Bool.false_or, Bool.true_and,
          Bool.not_true, Option.isSome_none, Bool.and_false, Bool.false_and]
      · have harg : c.result.convId ≠ conversationId ∨
            (c.type ≠ "UPSERT" ∧ c.type ≠ "DELETE") := by
          by_cases hcv : c.result.convId = conversationId
          · right
            exact ⟨fun ht => hu ⟨ht, hcv⟩, fun ht => hd' ⟨ht, hcv⟩⟩
          · left
            exact hcv
        have hs := stepMap_other m c conversationId harg
        have hAB : (c.type == "UPSERT" &&
            (c.result.convId == conversationId &&
              noDeleteFor conversationId rest)) = false := by
          rcases harg with hcv | ht
          · have : (c.result.convId == conversationId) = false :=
              beq_eq_false_iff_ne.2 hcv
            simp [this]
          · have : (c.type == "UPSERT") = false := beq_eq_false_iff_ne.2 ht.1
            simp [this]
        have hDel : (c.type == "DELETE" &&
            c.result.convId == conversationId) = false := by
          by_cases hcv : c.result.convId = conversationId
          · rcases harg with h' | h'
            · exact absurd hcv h'
            · simp [beq_eq_false_iff_ne.2 h'.2]
          · simp [beq_eq_false_iff_ne.2 hcv]
        simp only [noDeleteFor] at hAB hDel
        simp only [receivedUpsertNotDeleted, noDeleteFor, List.all_cons, hAB,
          hDel, hs, Bool.false_or, Bool.not_false, Bool.true_and]

/-- The conversation-change trace used by the C5 witness: an upsert for
`dlg1` followed by a delete for `dlg1`. -/
def demoTrace : List ConversationChange :=
  [⟨"UPSERT", demoResult⟩, ⟨"DELETE", demoResult⟩]

/-- Claim C5: a delete change removes the tracked entry and a messaging-event
notification for that conversation processed afterwards is ignored entirely
(no effect at all, in particular no content notification); and along any
exception-free conversation-change trace processed from the initial empty
table, a conversation is tracked exactly when an upsert for it was received
and not followed by a delete for it. -/
theorem claim_C5_delete_untracks (agentId conversationId : String)
    (m : ConvMap) (res : ChangeResult) (msgChanges : List MsgChange)
    (trace : List ConversationChange)
    (hres : res.convId = conversationId)
    (hexn : (processConvChanges emptyConvMap trace).exn = false) :
    ((processConvChange m ⟨"DELETE", res⟩).map conversationId = none ∧
     handleMessagingEvent agentId (processConvChange m ⟨"DELETE", res⟩).map
       ⟨conversationId, msgChanges⟩ = ([], false)) ∧
    ((processConvChanges emptyConvMap trace).map conversationId).isSome =
      receivedUpsertNotDeleted conversationId trace := by
  have hdel : (processConvChange m ⟨"DELETE", res⟩).map conversationId
      = none := by
    simp [processConvChange, ConvMap.erase, hres]
  refine ⟨⟨hdel, ?_⟩, ?_⟩
  · simp [handleMessagingEvent, hdel]
  · rw [map_of_no_exn trace emptyConvMap hexn, tracked_iff_aux]
    simp [emptyConvMap]

theorem claim_C5_witness :
    (demoResult.convId = "dlg1" ∧
      (processConvChanges emptyConvMap demoTrace).exn = false) ∧
    (((processConvChange demoMap ⟨"DELETE", demoResult⟩).map "dlg1" = none ∧
      handleMessagingEvent "botAgent"
        (processConvChange demoMap ⟨"DELETE", demoResult⟩).map
        ⟨"dlg1", [demoContentChange]⟩ = ([], false)) ∧
     ((processConvChanges emptyConvMap demoTrace).map "dlg1").isSome =
       receivedUpsertNotDeleted "dlg1" demoTrace) :=
  ⟨⟨rfl, by decide⟩,
   claim_C5_delete_untracks "botAgent" "dlg1" demoMap demoResult
     [demoContentChange] demoTrace rfl (by decide)⟩

/-! ### Claim C6 (reconnect back-off) -/

theorem reconnectSchedule_formula (rem : Nat) :
    ∀ (attempt : Nat) (delay : ℚ),
      attempt + rem = botConfig.reconnectAttempts →
      reconnectSchedule delay attempt =
        (List.range (rem + 1)).map
          (fun k => (attempt + k, delay * botConfig.reconnectRatio ^ k)) := by
  induction rem with
  | zero =>
    intro attempt delay h
    rw [reconnectSchedule]
    have hnot : ¬(attempt + 1 ≤ botConfig.reconnectAttempts) := by
      simp only [botConfig] at h ⊢
      omega
    rw [dif_neg hnot]
    rw [show List.range 1 = [0] from rfl]
    simp
  | succ n ih =>
    intro attempt delay h
    rw [reconnectSchedule]
    have hle : attempt + 1 ≤ botConfig.reconnectAttempts := by
      simp only [botConfig] at h ⊢
      omega
    rw [dif_pos hle, ih (attempt + 1) (delay * botConfig.reconnectRatio)
      (by omega)]
    conv_rhs => rw [List.range_succ_eq_map]
    rw [List.map_cons, List.map_map]
    refine List.cons_eq_cons.2 ⟨by simp, ?_⟩
    apply List.map_congr_left
    intro k _
    simp only [Function.comp, Prod.mk.injEq]
    refine ⟨by omega, ?_⟩
    rw [pow_succ]
    ring

/-- Claim C6: the reconnect sequence started by a socket closure makes
exactly 35 transport-reconnect attempts (no 36th occurs), and the delay
before attempt n — the n-th element of the schedule — is exactly
5 * 1.2 ^ (n - 1) seconds, that is, 5 * (6/5) ^ k at index k. -/
theorem claim_C6_reconnect_backoff :
    reconnectFromClose.length = 35 ∧
    reconnectFromClose =
      (List.range 35).map (fun k => (1 + k, (5 : ℚ) * (6 / 5) ^ k)) := by
  have h := reconnectSchedule_formula 34 1 5 rfl
  have h5 : botConfig.reconnectInterval = (5 : ℚ) := rfl
  have hr : botConfig.reconnectRatio = (6 / 5 : ℚ) := rfl
  rw [reconnectFromClose, h5] at *
  rw [h, hr]
  constructor
  · simp
  · rfl

end MessagingBot
